import Mathlib

-- Verification development for the rpmalloc allocator (src/rpmalloc/rpmalloc.c).
-- The C code is shallowly embedded: pointers are modelled as natural-number
-- addresses, machine integers as Nat with explicit reduction mod 2^32 / 2^64
-- where wrap-around matters, intrusive singly linked free lists as Lean lists
-- of the chained block addresses, and the sequentially observable effect of
-- each atomic CAS loop as a single state update.

set_option maxRecDepth 4000

namespace Rpmalloc

/-- Value 2^32, the modulus of `uint32_t` arithmetic. -/
def U32 : Nat := 4294967296

/-- Value 2^64, the modulus of `uint64_t` / 64-bit `size_t` arithmetic. -/
def U64 : Nat := 18446744073709551616

/-- PAGE_HEADER_SIZE from rpmalloc.c. -/
def PAGE_HEADER_SIZE : Nat := 128

/-- SPAN_HEADER_SIZE from rpmalloc.c (equal to PAGE_HEADER_SIZE). -/
def SPAN_HEADER_SIZE : Nat := 128

/-- SMALL_GRANULARITY from rpmalloc.c. -/
def SMALL_GRANULARITY : Nat := 32

/-- SMALL_PAGE_SIZE = 1 << 16. -/
def SMALL_PAGE_SIZE : Nat := 65536

/-- MEDIUM_PAGE_SIZE = 1 << 22. -/
def MEDIUM_PAGE_SIZE : Nat := 4194304

/-- LARGE_PAGE_SIZE = 1 << 26. -/
def LARGE_PAGE_SIZE : Nat := 67108864

/-- SPAN_SIZE = 256 MiB. -/
def SPAN_SIZE : Nat := 268435456

/-- SIZE_CLASS_COUNT = 29 small + 24 medium + 20 large classes. -/
def SIZE_CLASS_COUNT : Nat := 73

/-- MAX_ALIGNMENT from rpmalloc.c. -/
def MAX_ALIGNMENT : Nat := 262144

/-- Linux errno value for EINVAL, as used by the entry points. -/
def EINVAL : Nat := 22

/-- Linux errno value for ENOMEM, as used by the entry points. -/
def ENOMEM : Nat := 12

/-- Size class entry: `struct size_class_t` from rpmalloc.c. -/
structure size_class_t where
  block_size : Nat
  block_count : Nat
deriving DecidableEq

/-- SCLASS(n) table macro: small-page class of granularity multiple `n`. -/
def SCLASS (n : Nat) : size_class_t :=
  ⟨n * SMALL_GRANULARITY, (SMALL_PAGE_SIZE - PAGE_HEADER_SIZE) / (n * SMALL_GRANULARITY)⟩

/-- MCLASS(n) table macro: medium-page class of granularity multiple `n`. -/
def MCLASS (n : Nat) : size_class_t :=
  ⟨n * SMALL_GRANULARITY, (MEDIUM_PAGE_SIZE - PAGE_HEADER_SIZE) / (n * SMALL_GRANULARITY)⟩

/-- LCLASS(n) table macro: large-page class of granularity multiple `n`. -/
def LCLASS (n : Nat) : size_class_t :=
  ⟨n * SMALL_GRANULARITY, (LARGE_PAGE_SIZE - PAGE_HEADER_SIZE) / (n * SMALL_GRANULARITY)⟩

/-- The static `global_size_class` table of 73 entries from rpmalloc.c. -/
def global_size_class : List size_class_t :=
  [SCLASS 1, SCLASS 1, SCLASS 2, SCLASS 3, SCLASS 4, SCLASS 5, SCLASS 6,
   SCLASS 7, SCLASS 8, SCLASS 9, SCLASS 10, SCLASS 11, SCLASS 12, SCLASS 13,
   SCLASS 14, SCLASS 15, SCLASS 16, SCLASS 20, SCLASS 24, SCLASS 28, SCLASS 32,
   SCLASS 40, SCLASS 48, SCLASS 56, SCLASS 64, SCLASS 80, SCLASS 96, SCLASS 112,
   SCLASS 128, MCLASS 160, MCLASS 192, MCLASS 224, MCLASS 256, MCLASS 320, MCLASS 384,
   MCLASS 448, MCLASS 512, MCLASS 640, MCLASS 768, MCLASS 896, MCLASS 1024, MCLASS 1280,
   MCLASS 1536, MCLASS 1792, MCLASS 2048, MCLASS 2560, MCLASS 3072, MCLASS 3584, MCLASS 4096,
   MCLASS 5120, MCLASS 6144, MCLASS 7168, MCLASS 8192, LCLASS 10240, LCLASS 12288, LCLASS 14336,
   LCLASS 16384, LCLASS 20480, LCLASS 24576, LCLASS 28672, LCLASS 32768, LCLASS 40960, LCLASS 49152,
   LCLASS 57344, LCLASS 65536, LCLASS 81920, LCLASS 98304, LCLASS 114688, LCLASS 131072, LCLASS 163840,
   LCLASS 196608, LCLASS 229376, LCLASS 262144]

/-- Block size of class `c` (reads the `global_size_class` table). -/
def blockSize (c : Nat) : Nat := (global_size_class.getD c ⟨0, 0⟩).block_size

/-- Block count of class `c` (reads the `global_size_class` table). -/
def blockCount (c : Nat) : Nat := (global_size_class.getD c ⟨0, 0⟩).block_count

/-- Floor of the base-2 logarithm by repeated halving, with explicit fuel so
    that the function is structurally recursive (and hence evaluates inside
    the kernel); `log2fuel 64 x` is the bit position of the most significant
    set bit of any nonzero 64-bit value `x`. -/
def log2fuel (fuel x : Nat) : Nat :=
  match fuel with
  | 0 => 0
  | f + 1 => if x ≤ 1 then 0 else log2fuel f (x / 2) + 1

/-- Model of `rpmalloc_clz` on a 64-bit architecture: count of leading zero
    bits of a nonzero 64-bit value (`__builtin_clzll`), i.e. 63 minus the
    most significant set bit position; the argument 0 is undefined behaviour
    in C and never reached in the modelled paths. -/
def rpmalloc_clz (x : Nat) : Nat := if x = 0 then 64 else 63 - log2fuel 64 x

/-- Model of `get_size_class_tiny`: `(((uint32_t)size + 31) / 32)` with
    `uint32_t` arithmetic made explicit. -/
def get_size_class_tiny (size : Nat) : Nat := ((size % U32 + 31) % U32) / 32

/-- Model of `get_size_class` from rpmalloc.c for a 64-bit `size_t`.
    `minblock_count = (size + 31) / 32` in `size_t` arithmetic (the addition
    may wrap); for sizes above 16 granules the code decrements it (again in
    `size_t` arithmetic, wrapping when it is 0), takes the most significant
    bit position `b`, the two bits below it as the subclass, and returns
    `(b << 2) + subclass + 1`.  Shifts and masks on nonnegative values are
    written as division and remainder by the matching power of two. -/
def get_size_class (size : Nat) : Nat :=
  let minblock_count := ((size + (SMALL_GRANULARITY - 1)) % U64) / SMALL_GRANULARITY
  if size ≤ SMALL_GRANULARITY * 16 then
    if minblock_count ≠ 0 then minblock_count else 1
  else
    let mbc := (minblock_count + (U64 - 1)) % U64
    let most_significant_bit := 63 - rpmalloc_clz mbc
    let subclass_bits := (mbc / 2 ^ (most_significant_bit - 2)) % 4
    most_significant_bit * 4 + subclass_bits + 1

/-- Page type enumeration `page_type_t` from rpmalloc.c. -/
inductive page_type_t where
  | small
  | medium
  | large
  | huge
deriving DecidableEq

/-- Model of `get_page_type`: classes 0..28 are SMALL, 29..52 MEDIUM,
    53..72 LARGE, anything above is HUGE. -/
def get_page_type (size_class : Nat) : page_type_t :=
  if size_class < 29 then .small
  else if size_class < 53 then .medium
  else if size_class < 73 then .large
  else .huge

/-- Model of `get_page_aligned_size`: round `size` up to a multiple of the
    OS page size. -/
def get_page_aligned_size (os_page_size size : Nat) : Nat :=
  let unalign := size % os_page_size
  if unalign ≠ 0 then size + (os_page_size - unalign) else size

/-- Model of `struct page_t` from rpmalloc.c.  Counters are `uint32_t` in C;
    they are modelled as Nat, and every operation below is used under the
    preconditions (the C asserts) that rule out wrap-around.  The intrusive
    singly linked `local_free` chain (head pointer plus `next` links stored in
    the free blocks) is modelled as the list of chained block addresses; the
    packed 64-bit `thread_free` word (head block index, list count) together
    with its chain is likewise modelled as the list of chained block
    addresses, the count being the list length.  The `heap`, `next` and
    `prev` link fields tie the page into per-heap lists; those lists are
    modelled separately where a claim needs them (`page_free_thread`). -/
structure page_t where
  size_class : Nat
  block_size : Nat
  block_count : Nat
  block_initialized : Nat
  block_used : Nat
  page_type : page_type_t
  is_full : Bool
  is_free : Bool
  is_zero : Bool
  is_decommitted : Bool
  has_aligned_block : Bool
  local_free_count : Nat
  local_free : List Nat
  owner_thread : Nat
  thread_free : List Nat
deriving DecidableEq

/-- Model of `page_block`: address of block `block_index` inside the page at
    address `pageAddr` (`pointer_offset(page, PAGE_HEADER_SIZE +
    page->block_size * block_index)`). -/
def page_block (pageAddr block_size block_index : Nat) : Nat :=
  pageAddr + PAGE_HEADER_SIZE + block_size * block_index

/-- Model of `page_block_to_thread_free_list`: pack a `uint32_t` block index
    and list count into the 64-bit thread-free word,
    `((uint64_t)list_count << 32) | (uint64_t)block_index`. -/
def page_block_to_thread_free_list (block_index list_count : Nat) : Nat :=
  (list_count % U32) * U32 + block_index % U32

/-- Model of `page_block_from_thread_free_list`: decode the 64-bit
    thread-free word into its list count (`(token >> 32) & 0xFFFFFFFF`) and
    head block pointer (`page_block(page, token & 0xFFFFFFFF)` when the count
    is nonzero, the null pointer otherwise, modelled as `Option`). -/
def page_block_from_thread_free_list (pageAddr block_size token : Nat) : Nat × Option Nat :=
  let block_index := token % U32
  let list_count := (token / U32) % U32
  (list_count, if list_count ≠ 0 then some (page_block pageAddr block_size block_index) else none)

/-- Model of `page_block_realign`: move an interior pointer back to the
    start of its block by subtracting `block_offset % block_size`, where
    `block_offset` is the distance from the page's first block. -/
def page_block_realign (page : page_t) (pageAddr block : Nat) : Nat :=
  let blocks_start := pageAddr + PAGE_HEADER_SIZE
  let block_offset := block - blocks_start
  block - block_offset % page.block_size

/-- Model of `page_available_to_free` restricted to the page's own fields:
    the page is flagged free.  (The C function also unlinks the page from
    `heap->page_available[size_class]`, pushes it onto
    `heap->page_free[page_type]` and decommits the next page of that list;
    those act on the heap lists and on other pages, not on this page's
    accounting fields.) -/
def page_available_to_free (page : page_t) : page_t :=
  { page with is_free := true }

/-- Model of `page_full_to_available` restricted to the page's own fields:
    the full flag is cleared.  (The C function also links the page back into
    `heap->page_available[size_class]`.) -/
def page_full_to_available (page : page_t) : page_t :=
  { page with is_full := false }

/-- Model of `page_get_local_free_block`: pop the head of the local free
    list if any, adjusting `local_free_count` and `block_used`. -/
def page_get_local_free_block (page : page_t) : Option Nat × page_t :=
  match page.local_free with
  | [] => (none, page)
  | block :: rest =>
    (some block,
     { page with
       local_free := rest,
       local_free_count := page.local_free_count - 1,
       block_used := page.block_used + 1 })

/-- Model of `page_put_local_free_block`: push a block onto the local free
    list, decrement `block_used`, and perform the page state transitions
    (available to free when the page becomes empty, full to available when
    it was full). -/
def page_put_local_free_block (page : page_t) (block : Nat) : page_t :=
  let page := { page with
    local_free := block :: page.local_free,
    local_free_count := page.local_free_count + 1,
    block_used := page.block_used - 1 }
  if page.block_used = 0 then page_available_to_free page
  else if page.is_full then page_full_to_available page
  else page

/-- Model of `page_adopt_thread_free_block_list`: if the thread-free list is
    nonempty, atomically exchange it to empty (the CAS loop's sequentially
    observable effect), make it the local free list, and subtract its count
    from `block_used`. -/
def page_adopt_thread_free_block_list (page : page_t) : page_t :=
  if page.thread_free ≠ [] then
    { page with
      local_free := page.thread_free,
      local_free_count := page.thread_free.length,
      block_used := page.block_used - page.thread_free.length,
      thread_free := [] }
  else page

/-- Model of `page_get_thread_free_block`: adopt the thread-free list and
    pop a block from the resulting local free list. -/
def page_get_thread_free_block (page : page_t) : Option Nat × page_t :=
  page_get_local_free_block (page_adopt_thread_free_block_list page)

/-- Model of `page_put_thread_free_block`: push the block onto the page's
    thread-free list (the CAS loop's sequentially observable effect; the new
    count is the old count plus one).  If the push created a single-element
    list on a full page, the code has an unfinished no-op branch; otherwise,
    if the new count reaches `block_count`, the page's extra OS pages are
    decommitted and the page is pushed onto the owning heap's
    `page_free_thread[page_type]` Treiber stack (modelled as a list of page
    addresses, passed and returned explicitly). -/
def page_put_thread_free_block (page : page_t) (block : Nat)
    (page_free_thread : List Nat) (pageAddr : Nat) : page_t × List Nat :=
  let list_size := page.thread_free.length + 1
  let page := { page with thread_free := block :: page.thread_free }
  if list_size = 1 ∧ page.is_full then
    (page, page_free_thread)
  else if page.block_count ≤ list_size then
    ({ page with is_decommitted := true }, pageAddr :: page_free_thread)
  else
    (page, page_free_thread)

/-- Iteration count of the block-linking loop in `page_initialize_blocks`:
    starting from `free_block`, advance by `block_size` while the address is
    below `memory_page_next` and fewer than `fuel` (= `max_list_count`)
    blocks have been linked. -/
def link_blocks_count (block_size memory_page_next free_block fuel : Nat) : Nat :=
  match fuel with
  | 0 => 0
  | f + 1 =>
    if free_block < memory_page_next then
      link_blocks_count block_size memory_page_next (free_block + block_size) f + 1
    else 0

/-- Addresses of the chain of `k` blocks linked by `page_initialize_blocks`,
    starting at `start` and spaced `block_size` apart. -/
def chain_blocks (start block_size k : Nat) : List Nat :=
  (List.range k).map (fun j => start + block_size * j)

/-- Model of `page_initialize_blocks`: hand out the block at watermark
    `block_initialized`, bumping the watermark and `block_used`.  For SMALL
    pages whose block size is below half an OS page, additionally link all
    following blocks inside the same OS page (rounding the block address
    down to an OS-page boundary models `block & ~(os_page_size - 1)` for the
    power-of-two OS page size) into the local free list. -/
def page_initialize_blocks (os_page_size pageAddr : Nat) (page : page_t) : Nat × page_t :=
  let block := page_block pageAddr page.block_size page.block_initialized
  let page := { page with
    block_initialized := page.block_initialized + 1,
    block_used := page.block_used + 1 }
  if page.page_type = page_type_t.small ∧ page.block_size < os_page_size / 2 then
    let memory_page_start := block - block % os_page_size
    let memory_page_next := memory_page_start + os_page_size
    let free_block := block + page.block_size
    let max_list_count := page.block_count - page.block_initialized
    let list_count := link_blocks_count page.block_size memory_page_next free_block max_list_count
    if list_count ≠ 0 then
      (block,
       { page with
         local_free := chain_blocks free_block page.block_size list_count,
         block_initialized := page.block_initialized + list_count,
         local_free_count := list_count })
    else (block, page)
  else (block, page)

/-- Model of `page_deallocate_block`: a free is local when the page is
    unowned or owned by the calling thread; with `has_aligned_block` set the
    pointer is first re-aligned to the block origin; local frees push onto
    the local free list, remote frees onto the thread-free list. -/
def page_deallocate_block (page : page_t) (pageAddr block calling_thread : Nat)
    (page_free_thread : List Nat) : page_t × List Nat :=
  let is_local := page.owner_thread = 0 ∨ page.owner_thread = calling_thread
  let block := if page.has_aligned_block then page_block_realign page pageAddr block else block
  if is_local then
    (page_put_local_free_block page block, page_free_thread)
  else
    page_put_thread_free_block page block page_free_thread pageAddr

/-- Model of `block_usable_size` for class-backed blocks (page types SMALL,
    MEDIUM, LARGE): `block_size - ((ptr - blocks_start) % block_size)`, with
    the page's block size passed explicitly. -/
def block_usable_size_classed (block_size pageAddr block : Nat) : Nat :=
  let blocks_start := pageAddr + PAGE_HEADER_SIZE
  block_size - (block - blocks_start) % block_size

/-- Model of `block_usable_size` for huge blocks:
    `span->mapped_size - (ptr - span)`. -/
def block_usable_size_huge (span_mapped_size spanAddr block : Nat) : Nat :=
  span_mapped_size - (block - spanAddr)

/-- Size class chosen by `heap_allocate_block`: the tiny lookup
    (`get_size_class_tiny`) for sizes up to 16 granules, the generic lookup
    (`get_size_class`) above. -/
def heap_allocate_size_class (size : Nat) : Nat :=
  if size ≤ SMALL_GRANULARITY * 16 then get_size_class_tiny size else get_size_class size

/-- Model of `heap_allocate_block_huge`: the block pointer and the recorded
    `span->mapped_size` for a huge allocation at span address `spanAddr`.
    The allocation maps `get_page_aligned_size(size + SPAN_HEADER_SIZE)`
    bytes aligned to SPAN_SIZE; under the default OS interface (`os_mmap`)
    the mapped size is that request plus the alignment.  The block starts
    `SPAN_HEADER_SIZE` bytes into the span. -/
def heap_allocate_block_huge (os_page_size spanAddr size : Nat) : Nat × Nat :=
  let alloc_size := get_page_aligned_size os_page_size (size + SPAN_HEADER_SIZE)
  (spanAddr + SPAN_HEADER_SIZE, alloc_size + SPAN_SIZE)

/-- RPMALLOC_NO_PRESERVE reallocation flag. -/
def RPMALLOC_NO_PRESERVE : Nat := 1

/-- RPMALLOC_GROW_OR_FAIL reallocation flag. -/
def RPMALLOC_GROW_OR_FAIL : Nat := 2

/-- Input of `heap_reallocate_block`: a class-backed block (with its page
    and the page's address), a huge block (with the span's recorded
    `page_size` and `mapped_size` and the span's address), or a null
    pointer. -/
inductive realloc_input where
  | classed (page : page_t) (pageAddr : Nat) (block : Nat)
  | huge (span_page_size span_mapped_size spanAddr block : Nat)
  | nullBlock
deriving DecidableEq

/-- Observable outcome of `heap_reallocate_block`: return the block origin
    in place (class-backed shrink-or-fit), return the huge block start in
    place recording a new logical size (`span->page_size = size`), return
    null because of GROW_OR_FAIL, or fall through and allocate a new block
    of `new_size` bytes, copying `min(old_size, new_size)` bytes (unless
    NO_PRESERVE) and freeing the old block. -/
inductive realloc_outcome where
  | in_place (ptr : Nat)
  | in_place_huge (ptr : Nat) (recorded_size : Nat)
  | grow_or_fail_null
  | alloc_new (new_size : Nat) (old_size : Nat)
deriving DecidableEq

/-- Block origin used by the class-backed branch of `heap_reallocate_block`:
    round the pointer's offset from `blocks_start` down to a block
    boundary. -/
def classed_block_origin (page : page_t) (pageAddr block : Nat) : Nat :=
  let blocks_start := pageAddr + PAGE_HEADER_SIZE
  let block_offset := block - blocks_start
  blocks_start + (block_offset / page.block_size) * page.block_size

/-- Effective old size in the class-backed branch of
    `heap_reallocate_block`: when the caller passes 0, default it to
    `block_size - (block - block_origin)`. -/
def classed_old_size (page : page_t) (pageAddr block old_size : Nat) : Nat :=
  if old_size = 0 then
    page.block_size - (block - classed_block_origin page pageAddr block)
  else old_size

/-- Tail of `heap_reallocate_block` reached when the block does not fit in
    place: fail under GROW_OR_FAIL, otherwise compute the allocation size
    with the hysteresis bound `old_size + (old_size >> 2) + (old_size >> 3)`
    (in `size_t` arithmetic) and allocate a new block. -/
def realloc_fallthrough (size old_size flags : Nat) : realloc_outcome :=
  if flags &&& RPMALLOC_GROW_OR_FAIL ≠ 0 then .grow_or_fail_null
  else
    let lower_bound := (old_size + old_size / 4 + old_size / 8) % U64
    let new_size := if lower_bound < size then size
      else if old_size < size then lower_bound else size
    .alloc_new new_size old_size

/-- Model of `heap_reallocate_block` from rpmalloc.c, as a function from the
    block's classification to the observable outcome. -/
def heap_reallocate_block (input : realloc_input) (size old_size flags : Nat) : realloc_outcome :=
  match input with
  | .classed page pageAddr block =>
    if size ≤ page.block_size then .in_place (classed_block_origin page pageAddr block)
    else realloc_fallthrough size (classed_old_size page pageAddr block old_size) flags
  | .huge span_page_size span_mapped_size spanAddr _block =>
    let old_size := if old_size = 0 then span_page_size else old_size
    if size < span_mapped_size then .in_place_huge (spanAddr + SPAN_HEADER_SIZE) size
    else realloc_fallthrough size old_size flags
  | .nullBlock => realloc_fallthrough size 0 flags

/-- Model of `heap_allocate_block_aligned` with the build-default
    `ENABLE_VALIDATE_ARGS = 0` (so the power-of-two and overflow checks are
    compiled out).  The underlying class/huge allocation is abstracted by
    the oracle `alloc : Nat → Option Nat` mapping a request size to the
    returned pointer (`none` for a null return).  The result pairs the
    returned pointer with the `errno` value written by this function, if
    any.  Alignments up to SMALL_GRANULARITY need no work; alignments of
    MAX_ALIGNMENT or more set `errno = EINVAL` and return null; otherwise
    `size + alignment` bytes are allocated and a misaligned pointer is
    stepped forward to the next aligned address
    (`((block & ~mask) + alignment`, with `block & ~mask` written as
    `block - (block & mask)`). -/
def heap_allocate_block_aligned (alloc : Nat → Option Nat) (alignment size : Nat) :
    Option Nat × Option Nat :=
  if alignment ≤ SMALL_GRANULARITY then (alloc size, none)
  else if MAX_ALIGNMENT ≤ alignment then (none, some EINVAL)
  else
    match alloc (size + alignment) with
    | none => (none, none)
    | some block =>
      let r := block &&& (alignment - 1)
      if r ≠ 0 then (some (block - r + alignment), none) else (some block, none)

/-- Model of `rpposix_memalign`: with a null out-pointer return EINVAL;
    otherwise store the result of `heap_allocate_block_aligned` and return
    0 for a non-null pointer, ENOMEM for null. -/
def rpposix_memalign (alloc : Nat → Option Nat) (memptr_nonnull : Bool)
    (alignment size : Nat) : Nat :=
  if memptr_nonnull then
    match (heap_allocate_block_aligned alloc alignment size).1 with
    | some _ => 0
    | none => ENOMEM
  else EINVAL

/-- Observable outcome of `rpcalloc`: return null with `errno = EINVAL`, or
    proceed to allocate (and zero) `total` bytes. -/
inductive calloc_result where
  | einval
  | allocate (total : Nat)
deriving DecidableEq

/-- Model of `rpcalloc` on a 64-bit `size_t`, parameterized by the
    compile-time `ENABLE_VALIDATE_ARGS` switch (default 0) and by
    `MAX_ALLOC_SIZE` (defined in the public header, not in this source
    file).  With validation, `__builtin_umull_overflow` computes the wrapped
    product and an overflow flag, and overflow or a product at or above
    `MAX_ALLOC_SIZE` yields EINVAL; without validation, `total = num * size`
    simply wraps. -/
def rpcalloc (validate_args : Bool) (max_alloc_size num size : Nat) : calloc_result :=
  if validate_args then
    if U64 ≤ num * size ∨ max_alloc_size ≤ num * size % U64 then .einval
    else .allocate (num * size % U64)
  else .allocate (num * size % U64)

/-- Bounds characterizing `log2fuel`: with enough fuel it returns the floor
    base-2 logarithm. -/
theorem log2fuel_bounds (fuel x : Nat) (h1 : 1 ≤ x) (h2 : x < 2 ^ fuel) :
    2 ^ log2fuel fuel x ≤ x ∧ x < 2 ^ (log2fuel fuel x + 1) := by
  induction fuel generalizing x with
  | zero => simp at h2; omega
  | succ f ih =>
    rw [log2fuel]
    by_cases hx : x ≤ 1
    · have : x = 1 := by omega
      subst this
      simp
    · rw [if_neg hx]
      have hy1 : 1 ≤ x / 2 := by omega
      have hy2 : x / 2 < 2 ^ f := by
        rw [pow_succ] at h2
        omega
      have := ih (x / 2) hy1 hy2
      rcases this with ⟨hl, hr⟩
      constructor
      · rw [pow_succ]
        omega
      · rw [pow_succ, pow_succ] at *
        omega

/-- Table fact: the block sizes of the linear classes 0..16 are
    `32 * max c 1` bytes. -/
theorem blockSize_linear : ∀ c < 17, blockSize c = 32 * max c 1 := by decide

/-- Table fact: for `4 ≤ b < 18` and `s < 4`, class `4b + s + 1` holds
    blocks of `32 * (5 + s) * 2^(b-2)` bytes and the class right before it
    blocks of `32 * (4 + s) * 2^(b-2)` bytes. -/
theorem blockSize_step : ∀ b < 18, 4 ≤ b → ∀ s < 4,
    blockSize (4 * b + s + 1) = 32 * ((5 + s) * 2 ^ (b - 2)) ∧
    blockSize (4 * b + s) = 32 * ((4 + s) * 2 ^ (b - 2)) := by decide

/-- Table fact: block sizes are strictly increasing from class 1 onward
    (classes 0 and 1 share the 32-byte block size). -/
theorem blockSize_strict : ∀ c < 72, 1 ≤ c → blockSize c < blockSize (c + 1) := by decide

/-- Table fact: every class has at least 7 blocks per page. -/
theorem blockCount_ge_seven : ∀ c < 73, 7 ≤ blockCount c := by decide

/-- Block sizes are monotone on classes 1..72. -/
theorem blockSize_mono (c d : Nat) (h1 : 1 ≤ c) (h2 : c ≤ d) (h3 : d ≤ 72) :
    blockSize c ≤ blockSize d := by
  induction d with
  | zero => omega
  | succ n ih =>
    rcases Nat.lt_or_ge c (n + 1) with h | h
    · have hcn : c ≤ n := by omega
      have h1n : 1 ≤ n := by omega
      have := blockSize_strict n (by omega) h1n
      have := ih hcn (by omega)
      omega
    · have : c = n + 1 := by omega
      subst this
      exact Nat.le_refl _

/-- Characterization of `get_size_class` on the tiny range. -/
theorem get_size_class_small (n : Nat) (h : n ≤ 512) :
    get_size_class n = max ((n + 31) / 32) 1 ∧ get_size_class_tiny n = (n + 31) / 32 := by
  unfold get_size_class get_size_class_tiny SMALL_GRANULARITY U32 U64
  constructor
  · rw [if_pos (by omega)]
    split <;> omega
  · omega

/-- Soundness and minimality of the tiny-range classes: the class returned
    for `n ≤ 512` fits `n` and is the least class of index at least 1 that
    does. -/
theorem get_size_class_small_sound (n : Nat) (h : n ≤ 512) :
    1 ≤ get_size_class n ∧ get_size_class n ≤ 16 ∧
    n ≤ blockSize (get_size_class n) ∧
    n ≤ blockSize (get_size_class_tiny n) ∧
    (∀ c, 1 ≤ c → c < get_size_class n → blockSize c < n) := by
  rcases get_size_class_small n h with ⟨hg, ht⟩
  have hm : (n + 31) / 32 ≤ 16 := by omega
  have hgv : get_size_class n = max ((n + 31) / 32) 1 := hg
  have hg1 : 1 ≤ get_size_class n := by omega
  have hg16 : get_size_class n ≤ 16 := by omega
  have hbs : blockSize (get_size_class n) = 32 * max ((n + 31) / 32) 1 := by
    rw [hgv]
    rw [blockSize_linear _ (by omega)]
    omega
  have hbt : blockSize (get_size_class_tiny n) = 32 * max ((n + 31) / 32) 1 := by
    rw [ht, blockSize_linear _ (by omega)]
  refine ⟨hg1, hg16, by omega, by omega, ?_⟩
  intro c hc1 hc2
  have hcb : blockSize c = 32 * max c 1 := blockSize_linear c (by omega)
  have : c < max ((n + 31) / 32) 1 := by omega
  have hn32 : 32 * ((n + 31) / 32 - 1) < n := by omega
  have : max c 1 = c := by omega
  omega

/-- Unfolding of `get_size_class` on the non-tiny branch, with the
    decremented minimum block count `md` abstracted. -/
theorem get_size_class_large_eq (n md : Nat) (h1 : ¬ n ≤ 512)
    (hmd : md = ((n + 31) % U64 / 32 + (U64 - 1)) % U64) :
    get_size_class n =
      (63 - rpmalloc_clz md) * 4 + (md / 2 ^ (63 - rpmalloc_clz md - 2)) % 4 + 1 := by
  unfold get_size_class SMALL_GRANULARITY
  norm_num
  rw [if_neg (by omega)]
  rw [← hmd]

/-- Soundness and minimality of the classes chosen for sizes between 512
    bytes and 8 MiB: the returned class is between 17 and 72, its block size
    fits `n`, and every smaller class of index at least 1 is too small. -/
theorem get_size_class_mid (n : Nat) (h1 : 512 < n) (h2 : n ≤ 8388608) :
    17 ≤ get_size_class n ∧ get_size_class n ≤ 72 ∧
    n ≤ blockSize (get_size_class n) ∧
    (∀ c, 1 ≤ c → c < get_size_class n → blockSize c < n) := by
  have hU : U64 = 18446744073709551616 := rfl
  set mb := (n + 31) / 32 with hmb
  have hmb1 : 17 ≤ mb := by omega
  have hmb2 : mb ≤ 262144 := by omega
  set m := mb - 1 with hmdef
  have hmd : m = ((n + 31) % U64 / 32 + (U64 - 1)) % U64 := by
    rw [hU] at *
    omega
  have h2b := get_size_class_large_eq n m (by omega) hmd
  obtain ⟨hblow, hbhigh⟩ :=
    log2fuel_bounds 64 m (by omega) (by norm_num; omega)
  set b := log2fuel 64 m with hb
  have hb17 : b ≤ 17 := by
    by_contra hc
    push_neg at hc
    have hpow : 2 ^ 18 ≤ 2 ^ b := Nat.pow_le_pow_right (by norm_num) (by omega)
    have h18 : (2 : Nat) ^ 18 = 262144 := by norm_num
    omega
  have hb4 : 4 ≤ b := by
    by_contra hc
    push_neg at hc
    have hpow : 2 ^ (b + 1) ≤ 2 ^ 4 := Nat.pow_le_pow_right (by norm_num) (by omega)
    have h4 : (2 : Nat) ^ 4 = 16 := by norm_num
    omega
  have hclz : rpmalloc_clz m = 63 - b := by
    unfold rpmalloc_clz
    rw [if_neg (by omega), ← hb]
  rw [hclz] at h2b
  have hb63 : 63 - (63 - b) = b := by omega
  rw [hb63] at h2b
  set D := 2 ^ (b - 2) with hD
  have hDpos : 0 < D := pow_pos (by norm_num) _
  have h4D : 2 ^ b = 4 * D := by
    have hbeq : b - 2 + 2 = b := by omega
    calc 2 ^ b = 2 ^ (b - 2 + 2) := by rw [hbeq]
    _ = 2 ^ (b - 2) * 2 ^ 2 := pow_add 2 _ 2
    _ = 4 * D := by rw [← hD]; ring
  have h8D : 2 ^ (b + 1) = 8 * D := by
    have hbeq : b - 2 + 3 = b + 1 := by omega
    calc 2 ^ (b + 1) = 2 ^ (b - 2 + 3) := by rw [hbeq]
    _ = 2 ^ (b - 2) * 2 ^ 3 := pow_add 2 _ 3
    _ = 8 * D := by rw [← hD]; ring
  set q := m / D with hq
  have hq4 : 4 ≤ q := by
    rw [hq]
    exact (Nat.le_div_iff_mul_le hDpos).mpr (by omega)
  have hq8 : q < 8 := by
    rw [hq]
    exact (Nat.div_lt_iff_lt_mul hDpos).mpr (by omega)
  have hdm := Nat.div_add_mod m D
  rw [← hq] at hdm
  have hmodlt : m % D < D := Nat.mod_lt _ hDpos
  set s := q % 4 with hs
  have hq_eq : q = 4 + s := by omega
  have hs4 : s < 4 := by omega
  have hmlow : (4 + s) * D ≤ m := by
    calc (4 + s) * D = D * q := by rw [hq_eq]; ring
    _ ≤ m := by omega
  have hmhigh : m < (5 + s) * D := by
    calc m = D * q + m % D := (hdm).symm
    _ < D * q + D := by omega
    _ = (5 + s) * D := by rw [hq_eq]; ring
  obtain ⟨hstep1, hstep2⟩ := blockSize_step b (by omega) hb4 s hs4
  rw [← hD] at hstep1 hstep2
  have hclass : get_size_class n = 4 * b + s + 1 := by rw [h2b]; ring
  have hfit : n ≤ blockSize (4 * b + s + 1) := by
    rw [hstep1]
    calc n ≤ 32 * (m + 1) := by omega
    _ ≤ 32 * ((5 + s) * D) := Nat.mul_le_mul_left 32 (by omega)
  have hprev : blockSize (4 * b + s) < n := by
    rw [hstep2]
    have h32m : 32 * m < n := by omega
    calc 32 * ((4 + s) * D) ≤ 32 * m := Nat.mul_le_mul_left 32 hmlow
    _ < n := h32m
  refine ⟨by omega, by omega, by rw [hclass]; exact hfit, ?_⟩
  intro c hc1 hc2
  rw [hclass] at hc2
  have hcle : blockSize c ≤ blockSize (4 * b + s) := blockSize_mono c _ hc1 (by omega) (by omega)
  omega

/-- Sizes above 8 MiB (including the sizes near 2^64 whose block count
    computation wraps) map to class indices of 73 or more, signalling a
    huge allocation. -/
theorem get_size_class_huge (n : Nat) (h1 : 8388608 < n) (h2 : n < U64) :
    73 ≤ get_size_class n := by
  have hU : U64 = 18446744073709551616 := rfl
  by_cases hcase : n + 31 < U64
  · set m := (n + 31) / 32 - 1 with hmdef
    have hmd : m = ((n + 31) % U64 / 32 + (U64 - 1)) % U64 := by
      rw [hU] at *
      omega
    have h2b := get_size_class_large_eq n m (by omega) hmd
    have hm1 : 262144 ≤ m := by omega
    have hm2 : m < 2 ^ 64 := by
      rw [hU] at *
      omega
    obtain ⟨hblow, hbhigh⟩ := log2fuel_bounds 64 m (by omega) hm2
    set b := log2fuel 64 m with hb
    have hb18 : 18 ≤ b := by
      by_contra hc
      push_neg at hc
      have hpow : 2 ^ (b + 1) ≤ 2 ^ 18 := Nat.pow_le_pow_right (by norm_num) (by omega)
      have h18 : (2 : Nat) ^ 18 = 262144 := by norm_num
      omega
    have hb63 : b ≤ 63 := by
      by_contra hc
      push_neg at hc
      have hpow : 2 ^ 64 ≤ 2 ^ b := Nat.pow_le_pow_right (by norm_num) (by omega)
      omega
    have hclz : rpmalloc_clz m = 63 - b := by
      unfold rpmalloc_clz
      rw [if_neg (by omega), ← hb]
    rw [h2b, hclz]
    have hbb : 63 - (63 - b) = b := by omega
    rw [hbb]
    omega
  · have hmd : U64 - 1 = ((n + 31) % U64 / 32 + (U64 - 1)) % U64 := by
      simp only [U64] at *
      omega
    have h2b := get_size_class_large_eq n (U64 - 1) (by omega) hmd
    rw [h2b]
    decide

/-- C1 (counterexample): the claim fails as stated.  On the tiny dispatch
    path used by the allocator, `get_size_class_tiny 0 = 0`, not
    `max(ceil(0/32), 1) = 1`; and for n = 32 the returned class is 1 even
    though class 0 also holds 32-byte blocks, so the returned class is not
    the smallest class `c` with `block_size_c ≥ n`. -/
theorem C1_counterexample :
    get_size_class_tiny 0 = 0 ∧ get_size_class_tiny 0 ≠ max ((0 + 31) / 32) 1 ∧
    get_size_class 32 = 1 ∧ blockSize 0 = 32 ∧ 32 ≤ blockSize 0 ∧ 0 < get_size_class 32 := by
  decide

/-- C1 (amended): for every `size_t` request size `n`, `get_size_class n`
    returns, for `n ≤ 8 MiB`, the smallest class `c ≥ 1` with
    `block_size_c ≥ n` (classes 0 and 1 share the 32-byte block size), and
    the index is below 73; for `n > 8 MiB` it signals a huge request with an
    index of at least 73.  For `n ≤ 16·32` bytes the returned index equals
    `max(ceil(n/32), 1)`, while the tiny dispatch path `get_size_class_tiny`
    returns `ceil(n/32)` — equal to the former for `n ≥ 1` but 0 for
    `n = 0`, which is still sound since class 0 also holds 32-byte
    blocks. -/
theorem C1_size_class (n : Nat) (hn : n < U64) :
    (n ≤ 8388608 →
      1 ≤ get_size_class n ∧ get_size_class n < 73 ∧
      n ≤ blockSize (get_size_class n) ∧
      (∀ c, 1 ≤ c → c < get_size_class n → blockSize c < n)) ∧
    (8388608 < n → 73 ≤ get_size_class n) ∧
    (n ≤ 512 →
      get_size_class n = max ((n + 31) / 32) 1 ∧
      get_size_class_tiny n = (n + 31) / 32 ∧
      n ≤ blockSize (get_size_class_tiny n)) := by
  refine ⟨?_, fun h => get_size_class_huge n h hn, ?_⟩
  · intro h8
    by_cases h5 : n ≤ 512
    · obtain ⟨hone, h16, hfit, htiny, hmin⟩ := get_size_class_small_sound n h5
      exact ⟨hone, by omega, hfit, hmin⟩
    · obtain ⟨h17, h72, hfit, hmin⟩ := get_size_class_mid n (by omega) h8
      exact ⟨by omega, by omega, hfit, hmin⟩
  · intro h5
    obtain ⟨hg, ht⟩ := get_size_class_small n h5
    obtain ⟨_, _, _, htiny, _⟩ := get_size_class_small_sound n h5
    exact ⟨hg, ht, htiny⟩

/-- C1 (witness): the amended theorem applied at the concrete sizes 100 and
    9000000. -/
theorem C1_size_class_witness :
    (1 ≤ get_size_class 100 ∧ get_size_class 100 < 73 ∧
      100 ≤ blockSize (get_size_class 100) ∧
      get_size_class 100 = max ((100 + 31) / 32) 1 ∧
      get_size_class_tiny 100 = (100 + 31) / 32) ∧
    73 ≤ get_size_class 9000000 := by
  have h := C1_size_class 100 (by decide)
  have h9 := C1_size_class 9000000 (by decide)
  exact ⟨⟨(h.1 (by decide)).1, (h.1 (by decide)).2.1, (h.1 (by decide)).2.2.1,
    (h.2.2 (by decide)).1, (h.2.2 (by decide)).2.1⟩, h9.2.1 (by decide)⟩

/-- Rounding a size up to an OS page multiple never shrinks it. -/
theorem get_page_aligned_size_ge (os s : Nat) : s ≤ get_page_aligned_size os s := by
  simp only [get_page_aligned_size]
  split <;> omega

/-- The size class picked by `heap_allocate_block` (tiny path below 16
    granules, generic path above) always fits the request, for requests up
    to the largest class size. -/
theorem heap_allocate_size_class_fits (n : Nat) (h : n ≤ 8388608) :
    n ≤ blockSize (heap_allocate_size_class n) ∧ heap_allocate_size_class n < 73 := by
  simp only [heap_allocate_size_class, SMALL_GRANULARITY]
  norm_num
  by_cases h5 : n ≤ 512
  · rw [if_pos h5]
    obtain ⟨_, _, _, htiny, _⟩ := get_size_class_small_sound n h5
    obtain ⟨_, ht⟩ := get_size_class_small n h5
    constructor
    · exact htiny
    · rw [ht]; omega
  · rw [if_neg h5]
    obtain ⟨h17, h72, hfit, _⟩ := get_size_class_mid n (by omega) h
    exact ⟨hfit, by omega⟩

/-- C9: usable size covers the request.  For a class-backed allocation of
    `n ≤ 8 MiB` bytes, the block handed out lies at a block origin
    `blocks_start + i * block_size`, so `block_usable_size` computes
    `block_size - ((ptr - blocks_start) % block_size) = block_size`, and
    the chosen class satisfies `block_size ≥ n`.  For a huge allocation,
    `block_usable_size` computes `mapped_size - (ptr - span)`, which covers
    `n` because the mapping spans at least
    `page_align(n + SPAN_HEADER_SIZE) + SPAN_SIZE` bytes and the block
    starts `SPAN_HEADER_SIZE` bytes into the span. -/
theorem C9_usable_size (n pageAddr i spanAddr os : Nat) :
    (n ≤ 8388608 →
      block_usable_size_classed (blockSize (heap_allocate_size_class n)) pageAddr
          (page_block pageAddr (blockSize (heap_allocate_size_class n)) i) =
        blockSize (heap_allocate_size_class n) ∧
      n ≤ blockSize (heap_allocate_size_class n)) ∧
    n ≤ block_usable_size_huge (heap_allocate_block_huge os spanAddr n).2 spanAddr
        (heap_allocate_block_huge os spanAddr n).1 := by
  constructor
  · intro h8
    obtain ⟨hfit, _⟩ := heap_allocate_size_class_fits n h8
    refine ⟨?_, hfit⟩
    simp only [block_usable_size_classed, page_block]
    have harith : pageAddr + PAGE_HEADER_SIZE + blockSize (heap_allocate_size_class n) * i -
        (pageAddr + PAGE_HEADER_SIZE) = blockSize (heap_allocate_size_class n) * i := by
      omega
    rw [harith, Nat.mul_mod_right]
    omega
  · simp only [block_usable_size_huge, heap_allocate_block_huge]
    have hge := get_page_aligned_size_ge os (n + SPAN_HEADER_SIZE)
    simp only [SPAN_HEADER_SIZE, SPAN_SIZE] at *
    omega

/-- C9 (witness): the usable-size theorem applied at the concrete request
    size 100, block index 3, page address 65536, span address 268435456 and
    OS page size 4096. -/
theorem C9_usable_size_witness :
    (block_usable_size_classed (blockSize (heap_allocate_size_class 100)) 65536
        (page_block 65536 (blockSize (heap_allocate_size_class 100)) 3) =
      blockSize (heap_allocate_size_class 100) ∧
      100 ≤ blockSize (heap_allocate_size_class 100)) ∧
    100 ≤ block_usable_size_huge (heap_allocate_block_huge 4096 268435456 100).2 268435456
        (heap_allocate_block_huge 4096 268435456 100).1 := by
  have h := C9_usable_size 100 65536 3 268435456 4096
  exact ⟨h.1 (by decide), h.2⟩


/-- Accounting invariant actually maintained by the page operations: the
    tracked local free count is the local free list length, the
    initialization watermark stays below the block count, and
    `block_used + local_free_count + (block_count - block_initialized)`
    equals `block_count`.  Blocks pushed onto `thread_free` by other
    threads remain counted in `block_used` until the owner adopts the
    list. -/
def page_accounting (p : page_t) : Prop :=
  p.local_free_count = p.local_free.length ∧
  p.block_initialized ≤ p.block_count ∧
  p.block_used + p.local_free_count + (p.block_count - p.block_initialized) = p.block_count

instance (p : page_t) : Decidable (page_accounting p) := by
  unfold page_accounting
  infer_instance

/-- Accounting equation exactly as the claim states it, with the
    thread-free list count added as a separate term. -/
def page_accounting_claimed (p : page_t) : Prop :=
  p.block_used + p.local_free_count + p.thread_free.length +
    (p.block_count - p.block_initialized) = p.block_count

instance (p : page_t) : Decidable (page_accounting_claimed p) := by
  unfold page_accounting_claimed
  infer_instance

/-- The linking loop of `page_initialize_blocks` links at most `fuel`
    (= `max_list_count`) blocks. -/
theorem link_blocks_count_le (block_size memory_page_next free_block fuel : Nat) :
    link_blocks_count block_size memory_page_next free_block fuel ≤ fuel := by
  induction fuel generalizing free_block with
  | zero => simp [link_blocks_count]
  | succ f ih =>
    rw [link_blocks_count]
    split
    · exact Nat.succ_le_succ (ih _)
    · omega

/-- The linked chain built by `page_initialize_blocks` has exactly
    `list_count` blocks. -/
theorem chain_blocks_length (start block_size k : Nat) :
    (chain_blocks start block_size k).length = k := by
  simp [chain_blocks]

/-- Fully-committed page used by the accounting counterexample: 2 blocks,
    both initialized and in use, owned by thread 1 and marked full. -/
def c2_full_page : page_t :=
  { size_class := 0, block_size := 32, block_count := 2, block_initialized := 2,
    block_used := 2, page_type := .small, is_full := true, is_free := false,
    is_zero := false, is_decommitted := false, has_aligned_block := false,
    local_free_count := 0, local_free := [], owner_thread := 1, thread_free := [] }

/-- Page with one outstanding block and one block on the local free list,
    used by the accounting witness. -/
def c2_avail_page : page_t :=
  { size_class := 0, block_size := 32, block_count := 3, block_initialized := 2,
    block_used := 1, page_type := .small, is_full := false, is_free := false,
    is_zero := false, is_decommitted := false, has_aligned_block := false,
    local_free_count := 1, local_free := [160], owner_thread := 1, thread_free := [] }

/-- C2 (counterexample): the claimed equation
    `block_used + |local_free| + |thread_free| + (block_count -
    block_initialized) = block_count` is not preserved by a remote free:
    pushing a block of the fully-used two-block page `c2_full_page` onto its
    thread-free list leaves `block_used` untouched, so the left side grows
    to `block_count + 1`. -/
theorem C2_counterexample :
    page_accounting_claimed c2_full_page ∧
    ¬ page_accounting_claimed (page_put_thread_free_block c2_full_page 128 [] 0).1 := by
  decide

/-- C2 (amended): the page accounting invariant
    `block_used + local_free_count + (block_count - block_initialized) =
    block_count` (together with `local_free_count = |local_free|` and
    `block_initialized ≤ block_count`) is preserved by every page
    operation: popping the local free list, pushing a local free, adopting
    the thread-free list (under the code's assertion
    `|thread_free| ≤ block_used`, with the local free list empty as at every
    call site), allocating by bumping `block_initialized` (including the
    small-page bulk linking path), adopting plus popping, and pushing a
    block remotely.  Blocks on `thread_free` stay counted in `block_used`
    until adoption, so the spec's equation with the `|thread_free|` term
    added holds exactly when the thread-free list is empty. -/
theorem C2_page_accounting :
    (∀ p b r, page_accounting p → page_get_local_free_block p = (some b, r) →
      page_accounting r) ∧
    (∀ p b, page_accounting p → 1 ≤ p.block_used →
      page_accounting (page_put_local_free_block p b)) ∧
    (∀ p, page_accounting p → p.thread_free.length ≤ p.block_used → p.local_free = [] →
      page_accounting (page_adopt_thread_free_block_list p)) ∧
    (∀ os pageAddr p, page_accounting p → p.block_initialized < p.block_count →
      p.local_free = [] → page_accounting (page_initialize_blocks os pageAddr p).2) ∧
    (∀ p, page_accounting p → p.thread_free.length ≤ p.block_used → p.local_free = [] →
      page_accounting (page_get_thread_free_block p).2) ∧
    (∀ p b st pageAddr, page_accounting p →
      page_accounting (page_put_thread_free_block p b st pageAddr).1) ∧
    (∀ p, page_accounting p → (page_accounting_claimed p ↔ p.thread_free = [])) := by
  have hadopt : ∀ p, page_accounting p → p.thread_free.length ≤ p.block_used →
      p.local_free = [] → page_accounting (page_adopt_thread_free_block_list p) := by
    intro p hInv htf hlf
    obtain ⟨h1, h2, h3⟩ := hInv
    rw [hlf] at h1
    simp only [List.length_nil] at h1
    simp only [page_adopt_thread_free_block_list]
    split
    · simp only [page_accounting]
      refine ⟨trivial, ?_⟩
      omega
    · exact ⟨h1.trans (by simp [hlf]), h2, h3⟩
  have hpop : ∀ p b r, page_accounting p → page_get_local_free_block p = (some b, r) →
      page_accounting r := by
    intro p b r hInv heq
    obtain ⟨h1, h2, h3⟩ := hInv
    simp only [page_get_local_free_block] at heq
    match hl : p.local_free with
    | [] => rw [hl] at heq; exact absurd heq (by simp)
    | x :: rest =>
      rw [hl] at heq
      simp only [Prod.mk.injEq] at heq
      obtain ⟨-, hr⟩ := heq
      subst hr
      rw [hl] at h1
      simp only [List.length_cons] at h1
      simp only [page_accounting]
      omega
  refine ⟨hpop, ?_, hadopt, ?_, ?_, ?_, ?_⟩
  · intro p b hInv hused
    obtain ⟨h1, h2, h3⟩ := hInv
    simp only [page_put_local_free_block, page_available_to_free, page_full_to_available]
    split_ifs <;> simp only [page_accounting, List.length_cons] <;> omega
  · intro os pageAddr p hInv hwm hlf
    obtain ⟨h1, h2, h3⟩ := hInv
    rw [hlf] at h1
    simp only [List.length_nil] at h1
    simp only [page_initialize_blocks]
    split_ifs with hsm hlc
    · have hkle := link_blocks_count_le p.block_size
        (page_block pageAddr p.block_size p.block_initialized -
          page_block pageAddr p.block_size p.block_initialized % os + os)
        (page_block pageAddr p.block_size p.block_initialized + p.block_size)
        (p.block_count - (p.block_initialized + 1))
      simp only [page_accounting, chain_blocks_length]
      refine ⟨trivial, ?_⟩
      omega
    · simp only [page_accounting]
      rw [hlf]
      simp only [List.length_nil]
      omega
    · simp only [page_accounting]
      rw [hlf]
      simp only [List.length_nil]
      omega
  · intro p hInv htf hlf
    have h := hadopt p hInv htf hlf
    obtain ⟨h1, h2, h3⟩ := h
    simp only [page_get_thread_free_block, page_get_local_free_block]
    split
    · exact ⟨h1, h2, h3⟩
    · next x rest heq =>
      rw [heq] at h1
      simp only [List.length_cons] at h1
      simp only [page_accounting]
      omega
  · intro p b st pageAddr hInv
    obtain ⟨h1, h2, h3⟩ := hInv
    simp only [page_put_thread_free_block]
    split_ifs <;> exact ⟨h1, h2, h3⟩
  · intro p hInv
    obtain ⟨h1, h2, h3⟩ := hInv
    unfold page_accounting_claimed
    constructor
    · intro hc
      have : p.thread_free.length = 0 := by omega
      exact List.length_eq_zero.mp this
    · intro he
      rw [he]
      simp only [List.length_nil]
      omega

/-- C2 (witness): the amended invariant theorem applied to the concrete
    page `c2_avail_page`: a local free push and a remote push both preserve
    the invariant, and the claimed equation holds there because the
    thread-free list is empty. -/
theorem C2_page_accounting_witness :
    page_accounting (page_put_local_free_block c2_avail_page 192) ∧
    page_accounting (page_put_thread_free_block c2_avail_page 192 [] 0).1 ∧
    page_accounting_claimed c2_avail_page := by
  refine ⟨C2_page_accounting.2.1 c2_avail_page 192 (by decide) (by decide),
    C2_page_accounting.2.2.2.2.2.1 c2_avail_page 192 [] 0 (by decide), ?_⟩
  exact (C2_page_accounting.2.2.2.2.2.2 c2_avail_page (by decide)).mpr (by decide)

/-- Page used by the C3 and C4 witnesses: a full page owned by thread 7
    with 8 blocks, all initialized, 2 already on the thread-free list. -/
def c34_page : page_t :=
  { size_class := 1, block_size := 32, block_count := 8, block_initialized := 8,
    block_used := 8, page_type := .small, is_full := true, is_free := false,
    is_zero := false, is_decommitted := false, has_aligned_block := false,
    local_free_count := 0, local_free := [], owner_thread := 7,
    thread_free := [256, 288] }

/-- Field changes common to every branch of `page_put_local_free_block`:
    the block is consed onto the local free list, the count goes up by one
    and `block_used` down by one. -/
theorem page_put_local_free_block_fields (p : page_t) (b : Nat) :
    (page_put_local_free_block p b).local_free = b :: p.local_free ∧
    (page_put_local_free_block p b).block_used = p.block_used - 1 ∧
    (page_put_local_free_block p b).local_free_count = p.local_free_count + 1 := by
  simp only [page_put_local_free_block, page_available_to_free, page_full_to_available]
  split_ifs <;> exact ⟨rfl, rfl, rfl⟩

/-- Field changes common to every branch of `page_put_thread_free_block`:
    the block is consed onto the thread-free list and `block_used` is left
    untouched. -/
theorem page_put_thread_free_block_fields (p : page_t) (b : Nat) (st : List Nat)
    (pageAddr : Nat) :
    (page_put_thread_free_block p b st pageAddr).1.thread_free = b :: p.thread_free ∧
    (page_put_thread_free_block p b st pageAddr).1.block_used = p.block_used := by
  simp only [page_put_thread_free_block]
  split_ifs <;> exact ⟨rfl, rfl⟩

/-- C3: `page_deallocate_block` on a class-backed page.  When the page is
    unowned (`owner_thread = 0`) or owned by the calling thread, the
    (possibly re-aligned) block is pushed onto `local_free` and
    `block_used` is decremented by one, with no change to the heap's
    `page_free_thread` stack; otherwise it is pushed onto `thread_free`
    with `block_used` unchanged.  When `has_aligned_block` is set, the
    pushed pointer is first re-aligned to the block origin by subtracting
    `(block - blocks_start) % block_size`. -/
theorem C3_page_deallocate (p : page_t) (pageAddr block calling : Nat) (st : List Nat)
    (hused : 1 ≤ p.block_used) :
    ((p.owner_thread = 0 ∨ p.owner_thread = calling) →
      (page_deallocate_block p pageAddr block calling st).1.local_free =
        (if p.has_aligned_block then page_block_realign p pageAddr block else block) ::
          p.local_free ∧
      (page_deallocate_block p pageAddr block calling st).1.block_used + 1 = p.block_used ∧
      (page_deallocate_block p pageAddr block calling st).2 = st) ∧
    (¬ (p.owner_thread = 0 ∨ p.owner_thread = calling) →
      (page_deallocate_block p pageAddr block calling st).1.thread_free =
        (if p.has_aligned_block then page_block_realign p pageAddr block else block) ::
          p.thread_free ∧
      (page_deallocate_block p pageAddr block calling st).1.block_used = p.block_used) ∧
    (p.has_aligned_block = true →
      page_block_realign p pageAddr block =
        block - (block - (pageAddr + PAGE_HEADER_SIZE)) % p.block_size) := by
  refine ⟨?_, ?_, fun _ => by simp only [page_block_realign]⟩
  · intro hloc
    have hmain : page_deallocate_block p pageAddr block calling st =
        (page_put_local_free_block p
          (if p.has_aligned_block then page_block_realign p pageAddr block else block), st) := by
      simp only [page_deallocate_block, if_pos hloc]
    rw [hmain]
    obtain ⟨hf1, hf2, -⟩ := page_put_local_free_block_fields p
      (if p.has_aligned_block then page_block_realign p pageAddr block else block)
    exact ⟨hf1, by rw [hf2]; omega, rfl⟩
  · intro hrem
    have hmain : page_deallocate_block p pageAddr block calling st =
        page_put_thread_free_block p
          (if p.has_aligned_block then page_block_realign p pageAddr block else block)
          st pageAddr := by
      simp only [page_deallocate_block, if_neg hrem]
    rw [hmain]
    exact page_put_thread_free_block_fields p _ st pageAddr

/-- C3 (witness): the deallocation theorem applied to the concrete page
    `c34_page`: thread 7 frees locally (decrementing `block_used`), thread
    9 frees remotely (pushing onto `thread_free`). -/
theorem C3_page_deallocate_witness :
    (page_deallocate_block c34_page 0 160 7 []).1.local_free = [160] ∧
    (page_deallocate_block c34_page 0 160 7 []).1.block_used + 1 = 8 ∧
    (page_deallocate_block c34_page 0 160 9 []).1.thread_free = [160, 256, 288] ∧
    (page_deallocate_block c34_page 0 160 9 []).1.block_used = 8 := by
  have hloc := (C3_page_deallocate c34_page 0 160 7 [] (by decide)).1 (by decide)
  have hrem := (C3_page_deallocate c34_page 0 160 9 [] (by decide)).2.1 (by decide)
  refine ⟨?_, hloc.2.1, ?_, hrem.2⟩
  · rw [hloc.1]
    decide
  · rw [hrem.1]
    decide

/-- C4: remote full-page reclamation in `page_put_thread_free_block`.  For
    a page marked full with at least two blocks (every size class in the
    table has at least 7, see `blockCount_ge_seven`), a remote push that
    brings the thread-free count to at least `block_count` decommits the
    page's extra OS pages (setting `is_decommitted`) and pushes the page's
    address onto the owning heap's `page_free_thread` stack for its page
    type; a push that stays below `block_count` (in particular the first
    remote free to a full page) inserts nothing into the stack and leaves
    the decommit flag alone. -/
theorem C4_remote_reclaim (p : page_t) (block pageAddr : Nat) (st : List Nat)
    (_hfull : p.is_full = true) (hbc : 2 ≤ p.block_count) :
    (p.block_count ≤ p.thread_free.length + 1 →
      (page_put_thread_free_block p block st pageAddr).1.is_decommitted = true ∧
      (page_put_thread_free_block p block st pageAddr).2 = pageAddr :: st) ∧
    (p.thread_free.length + 1 < p.block_count →
      (page_put_thread_free_block p block st pageAddr).2 = st ∧
      (page_put_thread_free_block p block st pageAddr).1.is_decommitted =
        p.is_decommitted) := by
  constructor
  · intro hreach
    simp only [page_put_thread_free_block]
    split_ifs with h1c
    · exact absurd h1c.1 (by omega)
    · exact ⟨rfl, rfl⟩
  · intro hbelow
    simp only [page_put_thread_free_block]
    split_ifs with h1c h2c
    · exact ⟨rfl, rfl⟩
    · exact absurd h2c (by omega)
    · exact ⟨rfl, rfl⟩


/-- C4 (witness): the reclamation theorem applied to `c34_page` (block
    count 8): with 7 blocks already on the thread-free list the eighth
    remote push decommits and publishes the page; with only 2 the push
    inserts nothing and leaves the page committed. -/
theorem C4_remote_reclaim_witness :
    (page_put_thread_free_block
        { c34_page with thread_free := [256, 288, 320, 352, 384, 416, 448] }
        160 [] 4096).1.is_decommitted = true ∧
    (page_put_thread_free_block
        { c34_page with thread_free := [256, 288, 320, 352, 384, 416, 448] }
        160 [] 4096).2 = [4096] ∧
    (page_put_thread_free_block c34_page 160 [] 4096).2 = ([] : List Nat) ∧
    (page_put_thread_free_block c34_page 160 [] 4096).1.is_decommitted = false := by
  have hfull := (C4_remote_reclaim
    { c34_page with thread_free := [256, 288, 320, 352, 384, 416, 448] }
    160 4096 [] (by decide) (by decide)).1 (by decide)
  have hpart := (C4_remote_reclaim c34_page 160 4096 [] (by decide) (by decide)).2 (by decide)
  exact ⟨hfull.1, hfull.2, hpart.1, hpart.2.trans rfl⟩

/-- C5 (counterexample): for a huge block whose span has
    `mapped_size = 65536`, a reallocation to exactly `new_size = 65536`
    (so `new_size ≤ mapped_size` as the claim requires) does not update the
    recorded logical size and return the block start in place: the code
    tests `size < span->mapped_size` strictly, falls through, and allocates
    a new block. -/
theorem C5_counterexample :
    heap_reallocate_block (.huge 1000 65536 0 128) 65536 1000 0 =
      .alloc_new 65536 1000 ∧
    heap_reallocate_block (.huge 1000 65536 0 128) 65536 1000 0 ≠
      .in_place_huge 128 65536 ∧
    (65536 : Nat) ≤ 65536 := by
  decide

/-- C5 (amended): for every reallocation of a huge block, if
    `new_size < mapped_size` (strictly) the operation records the new
    logical size and returns the block start `span + SPAN_HEADER_SIZE`
    without allocating; otherwise (when GROW_OR_FAIL is not set) it falls
    through to allocate a new block of the hysteresis-adjusted size,
    copying and freeing the old one. -/
theorem C5_huge_realloc (sps sms spanAddr block size old flags : Nat) :
    (size < sms →
      heap_reallocate_block (.huge sps sms spanAddr block) size old flags =
        .in_place_huge (spanAddr + SPAN_HEADER_SIZE) size) ∧
    (sms ≤ size → flags &&& RPMALLOC_GROW_OR_FAIL = 0 →
      heap_reallocate_block (.huge sps sms spanAddr block) size old flags =
        .alloc_new
          (if ((if old = 0 then sps else old) + (if old = 0 then sps else old) / 4 +
              (if old = 0 then sps else old) / 8) % U64 < size then size
           else if (if old = 0 then sps else old) < size then
             ((if old = 0 then sps else old) + (if old = 0 then sps else old) / 4 +
              (if old = 0 then sps else old) / 8) % U64
           else size)
          (if old = 0 then sps else old)) := by
  constructor
  · intro hlt
    simp only [heap_reallocate_block, if_pos hlt]
  · intro hge hflag
    have hcond : ¬ (flags &&& RPMALLOC_GROW_OR_FAIL ≠ 0) := by simp [hflag]
    simp only [heap_reallocate_block, if_neg (by omega : ¬ size < sms), realloc_fallthrough]
    rw [if_neg hcond]

/-- C5 (witness): the amended theorem applied to a huge block of recorded
    size 1000 in a 65536-byte mapping: reallocation to 400 bytes stays in
    place recording 400; reallocation to 70000 bytes allocates a new
    block. -/
theorem C5_huge_realloc_witness :
    heap_reallocate_block (.huge 1000 65536 0 128) 400 1000 0 =
      .in_place_huge 128 400 ∧
    heap_reallocate_block (.huge 1000 65536 0 128) 70000 1000 0 =
      .alloc_new 70000 1000 := by
  have h1 := (C5_huge_realloc 1000 65536 0 128 400 1000 0).1 (by decide)
  have h2 := (C5_huge_realloc 1000 65536 0 128 70000 1000 0).2 (by decide) (by decide)
  exact ⟨h1, h2.trans (by decide)⟩

/-- C6: hysteresis of growing reallocations.  For a class-backed block
    whose page block size cannot hold `new_size` and with GROW_OR_FAIL
    clear, the size passed to the new allocation is: `new_size` itself when
    it exceeds `old + old/4 + old/8` (about 1.375 times the effective old
    size); otherwise that bound when `new_size > old`; otherwise `new_size`
    unchanged.  The effective old size (`classed_old_size`) is the
    caller-provided one, or the block's usable span when the caller passed
    0; the bound on it keeps the `size_t` sum from wrapping. -/
theorem C6_hysteresis (page : page_t) (pageAddr block size old flags : Nat)
    (hgrow : page.block_size < size) (hflag : flags &&& RPMALLOC_GROW_OR_FAIL = 0)
    (hold : classed_old_size page pageAddr block old < 2 ^ 63) :
    heap_reallocate_block (.classed page pageAddr block) size old flags =
      .alloc_new
        (if classed_old_size page pageAddr block old +
            classed_old_size page pageAddr block old / 4 +
            classed_old_size page pageAddr block old / 8 < size then size
         else if classed_old_size page pageAddr block old < size then
           classed_old_size page pageAddr block old +
             classed_old_size page pageAddr block old / 4 +
             classed_old_size page pageAddr block old / 8
         else size)
        (classed_old_size page pageAddr block old) := by
  have hcond : ¬ (flags &&& RPMALLOC_GROW_OR_FAIL ≠ 0) := by simp [hflag]
  simp only [heap_reallocate_block, if_neg (by omega : ¬ size ≤ page.block_size),
    realloc_fallthrough]
  rw [if_neg hcond]
  have hmod : (classed_old_size page pageAddr block old +
      classed_old_size page pageAddr block old / 4 +
      classed_old_size page pageAddr block old / 8) % U64 =
      classed_old_size page pageAddr block old +
        classed_old_size page pageAddr block old / 4 +
        classed_old_size page pageAddr block old / 8 := by
    have h63 : (2 : Nat) ^ 63 = 9223372036854775808 := by norm_num
    rw [h63] at hold
    unfold U64
    omega
  rw [hmod]

/-- Page backing the C6 witness: 32-byte blocks. -/
def c6_page : page_t :=
  { size_class := 1, block_size := 32, block_count := 8, block_initialized := 4,
    block_used := 4, page_type := .small, is_full := false, is_free := false,
    is_zero := false, is_decommitted := false, has_aligned_block := false,
    local_free_count := 0, local_free := [], owner_thread := 7, thread_free := [] }

/-- C6 (witness): the hysteresis theorem applied at block size 32.
    Growing 64 → 100 jumps straight to 100 (100 > 88 = 64 + 16 + 8);
    growing 80 → 90 overallocates to 110 = 80 + 20 + 10; "growing" 200 → 40
    keeps 40. -/
theorem C6_hysteresis_witness :
    heap_reallocate_block (.classed c6_page 0 128) 100 64 0 = .alloc_new 100 64 ∧
    heap_reallocate_block (.classed c6_page 0 128) 90 80 0 = .alloc_new 110 80 ∧
    heap_reallocate_block (.classed c6_page 0 128) 40 200 0 = .alloc_new 40 200 := by
  have h1 := C6_hysteresis c6_page 0 128 100 64 0 (by decide) (by decide) (by decide)
  have h2 := C6_hysteresis c6_page 0 128 90 80 0 (by decide) (by decide) (by decide)
  have h3 := C6_hysteresis c6_page 0 128 40 200 0 (by decide) (by decide) (by decide)
  exact ⟨h1.trans (by decide), h2.trans (by decide), h3.trans (by decide)⟩


/-- C7 (counterexample): with the build-default `ENABLE_VALIDATE_ARGS = 0`,
    `rpposix_memalign` with a valid out-pointer and the too-large alignment
    262144 returns ENOMEM (the EINVAL is only written to `errno`), and a
    non-power-of-two alignment such as 48 is not validated at all: with an
    allocator handing out the 48-aligned pointer 64 the call succeeds with
    return code 0. -/
theorem C7_counterexample :
    rpposix_memalign (fun _ => some 4096) true 262144 8 = ENOMEM ∧
    ENOMEM ≠ EINVAL ∧
    rpposix_memalign (fun _ => some 64) true 48 10 = 0 := by
  refine ⟨?_, by decide, ?_⟩
  · rfl
  · rfl

/-- C7 (amended): `rpposix_memalign` returns only 0, EINVAL or ENOMEM.  The
    code EINVAL is returned exactly when the out-pointer is null.  With a
    valid out-pointer, an alignment of 256 KiB or more makes the underlying
    aligned allocation write EINVAL into `errno` and return null, which
    `rpposix_memalign` maps to the return code ENOMEM (not EINVAL); an
    allocation failure (here: an alignment at most SMALL_GRANULARITY whose
    plain allocation fails) likewise returns ENOMEM; in the default build
    no power-of-two validation is performed. -/
theorem C7_posix_memalign (alloc : Nat → Option Nat) (memptr_nonnull : Bool)
    (alignment size : Nat) :
    (rpposix_memalign alloc memptr_nonnull alignment size = 0 ∨
     rpposix_memalign alloc memptr_nonnull alignment size = EINVAL ∨
     rpposix_memalign alloc memptr_nonnull alignment size = ENOMEM) ∧
    (rpposix_memalign alloc memptr_nonnull alignment size = EINVAL ↔
      memptr_nonnull = false) ∧
    (memptr_nonnull = true → MAX_ALIGNMENT ≤ alignment →
      rpposix_memalign alloc memptr_nonnull alignment size = ENOMEM ∧
      (heap_allocate_block_aligned alloc alignment size).2 = some EINVAL) ∧
    (memptr_nonnull = true → alignment ≤ SMALL_GRANULARITY → alloc size = none →
      rpposix_memalign alloc memptr_nonnull alignment size = ENOMEM) := by
  have hbig : MAX_ALIGNMENT ≤ alignment →
      heap_allocate_block_aligned alloc alignment size = (none, some EINVAL) := by
    intro hma
    have hns : ¬ alignment ≤ SMALL_GRANULARITY := by
      unfold MAX_ALIGNMENT at hma
      unfold SMALL_GRANULARITY
      omega
    simp only [heap_allocate_block_aligned, if_neg hns, if_pos hma]
  refine ⟨?_, ⟨?_, ?_⟩, ?_, ?_⟩
  · cases memptr_nonnull with
    | false => right; left; rfl
    | true =>
      simp only [rpposix_memalign, if_pos rfl]
      match (heap_allocate_block_aligned alloc alignment size).1 with
      | some _ => left; rfl
      | none => right; right; rfl
  · intro heq
    cases hm : memptr_nonnull with
    | false => rfl
    | true =>
      exfalso
      rw [hm] at heq
      unfold rpposix_memalign at heq
      rw [if_pos rfl] at heq
      cases hopt : (heap_allocate_block_aligned alloc alignment size).1 with
      | some v =>
        rw [hopt] at heq
        simp [EINVAL] at heq
      | none =>
        rw [hopt] at heq
        simp [ENOMEM, EINVAL] at heq
  · intro hm
    rw [hm]
    rfl
  · intro hm hma
    rw [hm]
    constructor
    · simp [rpposix_memalign, hbig hma]
    · rw [hbig hma]
  · intro hm hsmall hfail
    rw [hm]
    simp [rpposix_memalign, heap_allocate_block_aligned, if_pos hsmall, hfail]

/-- C7 (witness): the amended theorem applied with a concrete always-failing
    allocator at alignment 262144, and with a null out-pointer. -/
theorem C7_posix_memalign_witness :
    rpposix_memalign (fun _ => none) true 262144 8 = ENOMEM ∧
    (heap_allocate_block_aligned (fun _ => none) 262144 8).2 = some EINVAL ∧
    rpposix_memalign (fun _ => none) false 16 8 = EINVAL ∧
    rpposix_memalign (fun _ => none) true 16 8 = ENOMEM := by
  have hbig := (C7_posix_memalign (fun _ => none) true 262144 8).2.2.1 rfl (by decide)
  have hnull := (C7_posix_memalign (fun _ => none) false 16 8).2.1.mpr rfl
  have hoom := (C7_posix_memalign (fun _ => none) true 16 8).2.2.2 rfl (by decide) rfl
  exact ⟨hbig.1, hbig.2, hnull, hoom⟩

/-- C8 (counterexample): in the build-default configuration
    (`ENABLE_VALIDATE_ARGS = 0`), `calloc(2^32, 2^32)` on a 64-bit build —
    a pair whose product overflows `size_t` — is not rejected with EINVAL:
    the multiplication wraps to 0 and the code proceeds to allocate a
    0-byte block. -/
theorem C8_counterexample :
    U64 ≤ 4294967296 * 4294967296 ∧
    rpcalloc false 1152921504606846976 4294967296 4294967296 = .allocate 0 := by
  constructor
  · decide
  · rfl

/-- C8 (amended): only when compile-time argument validation
    (`ENABLE_VALIDATE_ARGS`) is enabled does `rpcalloc` detect a
    multiplication overflow and return null with `errno = EINVAL`; in the
    default build the product simply wraps around and the wrapped size is
    allocated (and zero-filled). -/
theorem C8_calloc_overflow (max_alloc_size num size : Nat) (hov : U64 ≤ num * size) :
    rpcalloc true max_alloc_size num size = .einval ∧
    rpcalloc false max_alloc_size num size = .allocate (num * size % U64) := by
  constructor
  · have hc : U64 ≤ num * size ∨ max_alloc_size ≤ num * size % U64 := Or.inl hov
    simp [rpcalloc, hc]
  · rfl

/-- C8 (witness): the amended theorem applied at `num = size = 2^32` with
    `MAX_ALLOC_SIZE = 2^60`: validation catches the overflow, the default
    build allocates the wrapped size 0. -/
theorem C8_calloc_overflow_witness :
    rpcalloc true 1152921504606846976 4294967296 4294967296 = .einval ∧
    rpcalloc false 1152921504606846976 4294967296 4294967296 = .allocate 0 := by
  have h := C8_calloc_overflow 1152921504606846976 4294967296 4294967296 (by decide)
  exact ⟨h.1, h.2.trans (by decide)⟩

/-- C10: the 64-bit thread-free word is a round trip.  For any `uint32_t`
    block index `i` and list count `c`, decoding the word
    `page_block_to_thread_free_list i c` yields the count `c` and, when
    `c > 0`, the head block `page_block pageAddr block_size i`; when
    `c = 0` the decoded head is the null pointer, and in particular the
    all-zero word decodes to the empty list. -/
theorem C10_thread_free_word (pageAddr block_size i c : Nat)
    (hi : i < U32) (hc : c < U32) :
    page_block_from_thread_free_list pageAddr block_size
        (page_block_to_thread_free_list i c) =
      (c, if c ≠ 0 then some (page_block pageAddr block_size i) else none) ∧
    page_block_from_thread_free_list pageAddr block_size 0 = (0, none) := by
  constructor
  · have henc : page_block_to_thread_free_list i c = c * U32 + i := by
      unfold page_block_to_thread_free_list
      rw [Nat.mod_eq_of_lt hi, Nat.mod_eq_of_lt hc]
    have hlow : (c * U32 + i) % U32 = i := by
      unfold U32 at *
      omega
    have hhigh : (c * U32 + i) / U32 % U32 = c := by
      unfold U32 at *
      omega
    unfold page_block_from_thread_free_list
    rw [henc, hlow, hhigh]
  · rfl

/-- C10 (witness): the round-trip theorem applied at index 5, count 2,
    page address 65536 and block size 32: the word decodes back to count 2
    with head block `65536 + 128 + 32 * 5 = 65824`. -/
theorem C10_thread_free_word_witness :
    page_block_from_thread_free_list 65536 32 (page_block_to_thread_free_list 5 2) =
      (2, some 65824) ∧
    page_block_from_thread_free_list 65536 32 0 = (0, none) := by
  have h := C10_thread_free_word 65536 32 5 2 (by decide) (by decide)
  exact ⟨h.1.trans (by decide), h.2⟩

end Rpmalloc
